import Mathlib

set_option maxRecDepth 8000

/-!
Shallow embedding of `src/IS211_Assignment8.py`, a two-player game of Pig:
turn resolution, the computer strategy, the plain and the timed game loop.
Die outcomes and human answers are modelled as explicit input streams;
wall-clock readings of the timed variant as a sequence of elapsed seconds,
one per boundary check.
-/

/-- Embeds `Die` (src lines 5–11): the constructor seeds the global PRNG with
`seed` (default 0); `roll` draws from it. The PRNG itself is external library
code, so rolls are modelled elsewhere as an abstract function of the seed. -/
structure Die where
  seed : Nat
deriving DecidableEq

/-- The kind of a player: the base class (human) or the subclass
ComputerPlayer. -/
inductive PlayerKind where
  | human
  | computer
deriving DecidableEq

/-- Embeds `Player` (src lines 13–23): a name and an accumulated score,
starting at 0; the subclass is recorded as a `kind` field. -/
structure Player where
  name : String
  kind : PlayerKind
  score : Nat
deriving DecidableEq

/-- Embeds `Player.add_to_score` (src lines 19–20). -/
def Player.addToScore (p : Player) (points : Nat) : Player :=
  { p with score := p.score + points }

/-- Embeds `ComputerPlayer.decide` (src lines 30–34): hold (the string "h")
when the turn total has reached `min(25, 100 - self.score)`, else roll ("r").
Python integers are modelled as `Int` inside the comparison. -/
def ComputerPlayer.decide (p : Player) (turnTotal : Nat) : String :=
  if min 25 (100 - (p.score : Int)) ≤ (turnTotal : Int) then "h" else "r"

/-- Embeds Python's `str.strip()`: drop whitespace from both ends. -/
def pyStrip (s : String) : String :=
  ⟨((s.data.dropWhile Char.isWhitespace).reverse.dropWhile
      Char.isWhitespace).reverse⟩

/-- Embeds Python's `str.lower()` (over the ASCII range the game uses):
lowercase every character. -/
def pyLower (s : String) : String :=
  ⟨s.data.map Char.toLower⟩

/-- The normalisation `input(...).strip().lower()` applied to a human answer
in `Game.play_turn` (src line 82). -/
def normalizeInput (s : String) : String :=
  pyLower (pyStrip s)

/-- How a single turn ended: rolled a 1 (bust), or chose to hold. -/
inductive TurnOutcome where
  | busted
  | held
deriving DecidableEq

/-- The outcome of a completed turn: the (possibly updated) player, how the
turn ended, the turn total when it ended, and the unconsumed remainders of
the roll and input streams. -/
structure TurnResult where
  player : Player
  outcome : TurnOutcome
  turnTotal : Nat
  rollsLeft : List Nat
  inputsLeft : List String
deriving DecidableEq

/-- Embeds the loop body of `Game.play_turn` (src lines 61–86). `rolls` is
the stream of die outcomes, `inputs` the stream of human answers; `none`
means a stream ran out before the turn finished (the Python loop would keep
drawing from the die or the user). A roll of 1 busts immediately; otherwise
the roll is added to the turn total and a decision is taken: the computer
strategy for a ComputerPlayer, else the next human answer normalised by
`.strip().lower()`; the answer "h" holds, adding the turn total to the
score, and anything else continues the turn. -/
def playTurnAux : Player → Nat → List Nat → List String → Option TurnResult
  | _, _, [], _ => none
  | p, turnTotal, roll :: rolls, inputs =>
    if roll = 1 then
      some ⟨p, .busted, turnTotal, rolls, inputs⟩
    else
      let turnTotal := turnTotal + roll
      match p.kind with
      | .computer =>
        if ComputerPlayer.decide p turnTotal = "h" then
          some ⟨p.addToScore turnTotal, .held, turnTotal, rolls, inputs⟩
        else
          playTurnAux p turnTotal rolls inputs
      | .human =>
        match inputs with
        | [] => none
        | s :: inputs =>
          if normalizeInput s = "h" then
            some ⟨p.addToScore turnTotal, .held, turnTotal, rolls, inputs⟩
          else
            playTurnAux p turnTotal rolls inputs

/-- Embeds the state set up by `Game.__init__` (src lines 49–55): the ordered
pair of players, the die (constructed with its default seed 0), and the
current player index. -/
structure GameState where
  players : Player × Player
  die : Die
  currentPlayerIndex : Nat
deriving DecidableEq

/-- Reads the active player, as the two-element player list indexed by the
current player index does in the source. -/
def GameState.currentPlayer (g : GameState) : Player :=
  if g.currentPlayerIndex = 0 then g.players.1 else g.players.2

/-- The player who is not currently active. -/
def GameState.otherPlayer (g : GameState) : Player :=
  if g.currentPlayerIndex = 0 then g.players.2 else g.players.1

/-- Writes back the active player after a turn. -/
def GameState.setCurrentPlayer (g : GameState) (p : Player) : GameState :=
  if g.currentPlayerIndex = 0 then { g with players := (p, g.players.2) }
  else { g with players := (g.players.1, p) }

/-- Embeds `Game.switch_turn` (src lines 57–59): the index becomes
`1 - current_player_index`. -/
def GameState.switchTurn (g : GameState) : GameState :=
  { g with currentPlayerIndex := 1 - g.currentPlayerIndex }

/-- Embeds `Game.check_winner` (src lines 88–94) as its boolean result: some
player's score is at least 100. -/
def GameState.checkWinner (g : GameState) : Bool :=
  100 ≤ g.players.1.score || 100 ≤ g.players.2.score

/-- One iteration of the `Game.start` loop body up to the win check: play one
turn for the active player and write the updated player back. -/
def stepTurn (g : GameState) (rolls : List Nat) (inputs : List String) :
    Option (GameState × List Nat × List String) :=
  match playTurnAux g.currentPlayer 0 rolls inputs with
  | none => none
  | some r => some (g.setCurrentPlayer r.player, r.rollsLeft, r.inputsLeft)

/-- Embeds the loop of `Game.start` (src lines 96–106): play a turn, stop
when `check_winner` fires, else switch turns and repeat. `fuel` bounds the
number of turns (the Python loop is unbounded); `none` means no winner was
reached within the fuel and the streams. -/
def gameLoop : Nat → GameState → List Nat → List String →
    Option (GameState × List Nat × List String)
  | 0, _, _, _ => none
  | fuel + 1, g, rolls, inputs =>
    match stepTurn g rolls inputs with
    | none => none
    | some (g', rl, il) =>
      if g'.checkWinner then some (g', rl, il)
      else gameLoop fuel g'.switchTurn rl il

/-- The game states observed at the successive turn boundaries of the
`Game.start` loop (each recorded before its turn is played), in order. -/
def boundaryStates : Nat → GameState → List Nat → List String → List GameState
  | 0, g, _, _ => [g]
  | fuel + 1, g, rolls, inputs =>
    g :: (match stepTurn g rolls inputs with
      | none => []
      | some (g', rl, il) =>
        if g'.checkWinner then [] else boundaryStates fuel g'.switchTurn rl il)

/-- Embeds `PlayerFactory.create_player` (src lines 38–45); the `ValueError`
raised on an unknown player type becomes an `Except.error` carrying its
message. -/
def PlayerFactory.createPlayer (playerType name : String) :
    Except String Player :=
  if pyLower playerType = "computer" then .ok ⟨name, .computer, 0⟩
  else if pyLower playerType = "human" then .ok ⟨name, .human, 0⟩
  else .error "Invalid player type. Choose 'human' or 'computer'."

/-- Embeds `Game.__init__` (src lines 49–55): both players are created
through the factory (a failure for either propagates, so no game state is
built), the die is `Die()` with its default seed 0, and play starts at
player index 0. -/
def mkGame (player1Type player2Type : String) : Except String GameState :=
  match PlayerFactory.createPlayer player1Type "Player 1" with
  | .error e => .error e
  | .ok p1 =>
    match PlayerFactory.createPlayer player2Type "Player 2" with
    | .error e => .error e
    | .ok p2 => .ok ⟨(p1, p2), ⟨0⟩, 0⟩

/-- Embeds `TimedGameProxy.declare_winner` (src lines 131–139) as the
announced winner: the strictly higher-scoring player, `none` for a tie. -/
def declareWinner (g : GameState) : Option Player :=
  if g.players.2.score < g.players.1.score then some g.players.1
  else if g.players.1.score < g.players.2.score then some g.players.2
  else none

/-- How a timed game ended: the deadline fired at a turn boundary (with the
declared winner, `none` for a tie), or a player reached 100 points first. -/
inductive TimedResult where
  | timeUp (final : GameState) (winner : Option Player)
  | won (final : GameState)
deriving DecidableEq

/-- Embeds the loop of `TimedGameProxy.start` (src lines 114–129). `times k`
is the elapsed wall-clock time in seconds observed at the k-th boundary
check; the check precedes the turn, so a turn in progress is never
interrupted. -/
def timedLoop (times : Nat → Nat) :
    Nat → Nat → GameState → List Nat → List String → Option TimedResult
  | 0, _, _, _, _ => none
  | fuel + 1, k, g, rolls, inputs =>
    if 60 ≤ times k then some (.timeUp g (declareWinner g))
    else
      match stepTurn g rolls inputs with
      | none => none
      | some (g', rl, il) =>
        if g'.checkWinner then some (.won g')
        else timedLoop times fuel (k + 1) g'.switchTurn rl il

/-- The first `n` die outcomes of a game, as the abstract PRNG `prng` maps
the die's seed and the draw index to an outcome. -/
def rollsFrom (prng : Nat → Nat → Nat) (d : Die) (n : Nat) : List Nat :=
  (List.range n).map (prng d.seed)

/-- A run of the plain game: the roll stream is fully determined by the die's
seed through the PRNG. -/
def runGame (prng : Nat → Nat → Nat) (g : GameState) (n fuel : Nat)
    (inputs : List String) : Option (GameState × List Nat × List String) :=
  gameLoop fuel g (rollsFrom prng g.die n) inputs

/-! Unfolding equations and helper lemmas. -/

theorem playTurnAux_nil (p : Player) (turnTotal : Nat) (inputs : List String) :
    playTurnAux p turnTotal [] inputs = none := rfl

theorem playTurnAux_cons (p : Player) (turnTotal roll : Nat)
    (rolls : List Nat) (inputs : List String) :
    playTurnAux p turnTotal (roll :: rolls) inputs =
      if roll = 1 then
        some ⟨p, .busted, turnTotal, rolls, inputs⟩
      else
        match p.kind with
        | .computer =>
          if ComputerPlayer.decide p (turnTotal + roll) = "h" then
            some ⟨p.addToScore (turnTotal + roll), .held, turnTotal + roll,
              rolls, inputs⟩
          else playTurnAux p (turnTotal + roll) rolls inputs
        | .human =>
          match inputs with
          | [] => none
          | s :: rest =>
            if normalizeInput s = "h" then
              some ⟨p.addToScore (turnTotal + roll), .held, turnTotal + roll,
                rolls, rest⟩
            else playTurnAux p (turnTotal + roll) rolls rest := rfl

theorem playTurnAux_busted_eq (p : Player) :
    ∀ (rolls : List Nat) (turnTotal : Nat) (inputs : List String)
      (r : TurnResult), playTurnAux p turnTotal rolls inputs = some r →
      r.outcome = .busted → r.player = p := by
  intro rolls
  induction rolls with
  | nil => intro tt inputs r h; simp [playTurnAux_nil] at h
  | cons roll rolls ih =>
    intro tt inputs r h hb
    rw [playTurnAux_cons] at h
    by_cases h1 : roll = 1
    · simp [h1] at h
      rw [← h]
    · simp only [h1, if_false] at h
      cases hk : p.kind with
      | computer =>
        rw [hk] at h
        by_cases hd : ComputerPlayer.decide p (tt + roll) = "h"
        · simp [hd] at h
          rw [← h] at hb
          simp at hb
        · simp [hd] at h
          exact ih _ _ _ h hb
      | human =>
        rw [hk] at h
        cases inputs with
        | nil => simp at h
        | cons s rest =>
          by_cases hd : normalizeInput s = "h"
          · simp [hd] at h
            rw [← h] at hb
            simp at hb
          · simp [hd] at h
            exact ih _ _ _ h hb

/-! Claim theorems. -/

/-- C1: the computer strategy holds (returns "h", Stop) exactly when the turn
total has reached `min(25, 100 - score)`, and rolls (returns "r", Continue)
otherwise; in particular at turn total 20 with score 85 it stops, and at
turn total 10 with score 50 it continues. -/
theorem computer_decide_stop_iff :
    (∀ (p : Player) (turnTotal : Nat),
        ComputerPlayer.decide p turnTotal = "h" ↔
          min 25 (100 - (p.score : Int)) ≤ (turnTotal : Int)) ∧
    (∀ (p : Player) (turnTotal : Nat),
        ComputerPlayer.decide p turnTotal = "r" ↔
          ¬ min 25 (100 - (p.score : Int)) ≤ (turnTotal : Int)) ∧
    ComputerPlayer.decide ⟨"Computer", .computer, 85⟩ 20 = "h" ∧
    ComputerPlayer.decide ⟨"Computer", .computer, 50⟩ 10 = "r" := by
  refine ⟨fun p turnTotal => ?_, fun p turnTotal => ?_, by decide, by decide⟩ <;>
    · unfold ComputerPlayer.decide
      split <;> simp_all

/-- C2: rolling a 1 ends the turn immediately at that roll — the result is a
bust, the rest of the streams is untouched — and whenever a turn ends in a
bust the player comes out exactly as they went in (turn total discarded,
score unchanged). -/
theorem bust_ends_turn_score_unchanged :
    (∀ (p : Player) (turnTotal : Nat) (rolls : List Nat)
        (inputs : List String),
        playTurnAux p turnTotal (1 :: rolls) inputs =
          some ⟨p, .busted, turnTotal, rolls, inputs⟩) ∧
    (∀ (p : Player) (turnTotal : Nat) (rolls : List Nat)
        (inputs : List String) (r : TurnResult),
        playTurnAux p turnTotal rolls inputs = some r →
        r.outcome = .busted → r.player = p) := by
  refine ⟨fun p turnTotal rolls inputs => rfl, fun p turnTotal rolls inputs r h hb => ?_⟩
  exact playTurnAux_busted_eq p rolls turnTotal inputs r h hb

/-- Witness for C2 at a concrete bust: a human player with score 5 rolls
3 then 1 and comes out unchanged. -/
theorem bust_ends_turn_score_unchanged_witness :
    playTurnAux ⟨"P", .human, 5⟩ 0 (1 :: [4, 2]) ["r"] =
      some ⟨⟨"P", .human, 5⟩, .busted, 0, [4, 2], ["r"]⟩ ∧
    (⟨⟨"P", .human, 5⟩, .busted, 3, [], ["r"]⟩ : TurnResult).player =
      ⟨"P", .human, 5⟩ :=
  ⟨bust_ends_turn_score_unchanged.1 ⟨"P", .human, 5⟩ 0 [4, 2] ["r"],
   bust_ends_turn_score_unchanged.2 ⟨"P", .human, 5⟩ 0 [3, 1] ["r", "r"]
     ⟨⟨"P", .human, 5⟩, .busted, 3, [], ["r"]⟩ (by decide) (by decide)⟩

theorem playTurnAux_consumed (p : Player) :
    ∀ (rolls : List Nat) (turnTotal : Nat) (inputs : List String)
      (r : TurnResult), playTurnAux p turnTotal rolls inputs = some r →
      ∃ consumed : List Nat,
        rolls = consumed ++ r.rollsLeft ∧
        (r.outcome = .held →
          (∀ x ∈ consumed, x ≠ 1) ∧ r.turnTotal = turnTotal + consumed.sum ∧
          r.player.score = p.score + r.turnTotal) ∧
        (r.outcome = .busted → r.player.score = p.score) := by
  intro rolls
  induction rolls with
  | nil => intro tt inputs r h; simp [playTurnAux_nil] at h
  | cons roll rolls ih =>
    intro tt inputs r h
    rw [playTurnAux_cons] at h
    by_cases h1 : roll = 1
    · subst h1
      simp only [if_true, Option.some.injEq] at h
      refine ⟨[1], by simp [← h], fun hh => ?_, fun _ => by rw [← h]⟩
      rw [← h] at hh
      simp at hh
    · simp only [h1, if_false] at h
      cases hk : p.kind with
      | computer =>
        rw [hk] at h
        by_cases hd : ComputerPlayer.decide p (tt + roll) = "h"
        · simp only [hd, if_true, Option.some.injEq] at h
          refine ⟨[roll], by simp [← h], fun _ => ?_, fun hb => ?_⟩
          · refine ⟨by simpa using h1, by simp [← h], ?_⟩
            rw [← h]
            simp [Player.addToScore]
          · rw [← h] at hb
            simp at hb
        · simp only [hd, if_false] at h
          obtain ⟨c, hc, hheld, hbust⟩ := ih (tt + roll) inputs r h
          refine ⟨roll :: c, by simp [hc], fun hh => ?_, hbust⟩
          obtain ⟨hne, htt, hsc⟩ := hheld hh
          refine ⟨?_, ?_, hsc⟩
          · intro x hx
            rcases List.mem_cons.mp hx with rfl | hx
            · exact h1
            · exact hne x hx
          · rw [htt]
            simp
            omega
      | human =>
        rw [hk] at h
        cases inputs with
        | nil => simp at h
        | cons s rest =>
          by_cases hd : normalizeInput s = "h"
          · simp only [hd, if_true, Option.some.injEq] at h
            refine ⟨[roll], by simp [← h], fun _ => ?_, fun hb => ?_⟩
            · refine ⟨by simpa using h1, by simp [← h], ?_⟩
              rw [← h]
              simp [Player.addToScore]
            · rw [← h] at hb
              simp at hb
          · simp only [hd, if_false] at h
            obtain ⟨c, hc, hheld, hbust⟩ := ih (tt + roll) rest r h
            refine ⟨roll :: c, by simp [hc], fun hh => ?_, hbust⟩
            obtain ⟨hne, htt, hsc⟩ := hheld hh
            refine ⟨?_, ?_, hsc⟩
            · intro x hx
              rcases List.mem_cons.mp hx with rfl | hx
              · exact h1
              · exact hne x hx
            · rw [htt]
              simp
              omega

/-- C3: in a completed turn the consumed rolls split off the stream; when the
turn ends by holding, every consumed roll is a non-1, the turn total is
exactly their sum, and exactly that sum is added to the player's score; when
the turn ends in a bust the score is unchanged (so the total is committed
only on hold, never on bust and never mid-turn). -/
theorem turn_total_is_sum_committed_on_hold :
    ∀ (p : Player) (rolls : List Nat) (inputs : List String) (r : TurnResult),
      playTurnAux p 0 rolls inputs = some r →
      ∃ consumed : List Nat,
        rolls = consumed ++ r.rollsLeft ∧
        (r.outcome = .held →
          (∀ x ∈ consumed, x ≠ 1) ∧ r.turnTotal = consumed.sum ∧
          r.player.score = p.score + consumed.sum) ∧
        (r.outcome = .busted → r.player.score = p.score) := by
  intro p rolls inputs r h
  obtain ⟨c, hc, hheld, hbust⟩ := playTurnAux_consumed p rolls 0 inputs r h
  refine ⟨c, hc, fun hh => ?_, hbust⟩
  obtain ⟨hne, htt, hsc⟩ := hheld hh
  rw [Nat.zero_add] at htt
  exact ⟨hne, htt, htt ▸ hsc⟩

/-- Witness for C3: a computer player at score 0 rolls five 6s and holds at
turn total 30, which is committed to the score. -/
theorem turn_total_is_sum_committed_on_hold_witness :
    ∃ consumed : List Nat,
      [6, 6, 6, 6, 6] =
        consumed ++ (⟨⟨"C", .computer, 30⟩, .held, 30, [], []⟩ :
          TurnResult).rollsLeft ∧
      ((⟨⟨"C", .computer, 30⟩, .held, 30, [], []⟩ : TurnResult).outcome =
          .held →
        (∀ x ∈ consumed, x ≠ 1) ∧
        (⟨⟨"C", .computer, 30⟩, .held, 30, [], []⟩ :
            TurnResult).turnTotal = consumed.sum ∧
        (⟨⟨"C", .computer, 30⟩, .held, 30, [], []⟩ :
            TurnResult).player.score =
          (⟨"C", .computer, 0⟩ : Player).score + consumed.sum) ∧
      ((⟨⟨"C", .computer, 30⟩, .held, 30, [], []⟩ : TurnResult).outcome =
          .busted →
        (⟨⟨"C", .computer, 30⟩, .held, 30, [], []⟩ :
            TurnResult).player.score = (⟨"C", .computer, 0⟩ : Player).score) :=
  turn_total_is_sum_committed_on_hold ⟨"C", .computer, 0⟩ [6, 6, 6, 6, 6] []
    ⟨⟨"C", .computer, 30⟩, .held, 30, [], []⟩ (by decide)

/-- C7: at a human decision point (a non-1 roll just added), the turn is held
— committing the turn total — exactly when the answer, stripped of
surrounding whitespace and lowercased, is the single character "h"; any
other answer simply continues the turn (no input is an error). -/
theorem human_hold_iff_normalized_h :
    ∀ (p : Player) (turnTotal roll : Nat) (rolls : List Nat) (s : String)
      (inputs : List String), p.kind = .human → roll ≠ 1 →
      playTurnAux p turnTotal (roll :: rolls) (s :: inputs) =
        (if pyLower (pyStrip s) = "h" then
          some ⟨p.addToScore (turnTotal + roll), .held, turnTotal + roll,
            rolls, inputs⟩
        else playTurnAux p (turnTotal + roll) rolls inputs) := by
  intro p turnTotal roll rolls s inputs hkind hroll
  rw [playTurnAux_cons, hkind]
  simp [hroll, normalizeInput]

/-- Witness for C7 at concrete answers: " H " (trims and lowercases to "h")
holds; "r" and "" continue. -/
theorem human_hold_iff_normalized_h_witness :
    (playTurnAux ⟨"P", .human, 0⟩ 0 (5 :: [5]) (" H " :: ["x"]) =
      (if pyLower (pyStrip " H ") = "h" then
        some ⟨(⟨"P", .human, 0⟩ : Player).addToScore (0 + 5), .held, 0 + 5,
          [5], ["x"]⟩
      else playTurnAux ⟨"P", .human, 0⟩ (0 + 5) [5] ["x"])) ∧
    (playTurnAux ⟨"P", .human, 0⟩ 0 (5 :: [1]) ("r" :: []) =
      (if pyLower (pyStrip "r") = "h" then
        some ⟨(⟨"P", .human, 0⟩ : Player).addToScore (0 + 5), .held, 0 + 5,
          [1], []⟩
      else playTurnAux ⟨"P", .human, 0⟩ (0 + 5) [1] [])) ∧
    (playTurnAux ⟨"P", .human, 0⟩ 0 (5 :: [1]) ("" :: []) =
      (if pyLower (pyStrip "") = "h" then
        some ⟨(⟨"P", .human, 0⟩ : Player).addToScore (0 + 5), .held, 0 + 5,
          [1], []⟩
      else playTurnAux ⟨"P", .human, 0⟩ (0 + 5) [1] [])) :=
  ⟨human_hold_iff_normalized_h ⟨"P", .human, 0⟩ 0 5 [5] " H " ["x"] rfl
      (by decide),
   human_hold_iff_normalized_h ⟨"P", .human, 0⟩ 0 5 [1] "r" [] rfl
      (by decide),
   human_hold_iff_normalized_h ⟨"P", .human, 0⟩ 0 5 [1] "" [] rfl
      (by decide)⟩

/-- C8: the factory rejects any player type whose lowercasing is neither
"computer" nor "human" with the descriptive error, accepts the two valid
values in any casing with a player of the matching kind, and game
construction fails (building no state) when either argument is invalid
while succeeding with matching kinds when both are valid. -/
theorem invalid_player_type_fails_fast :
    (∀ t n : String, pyLower t ≠ "computer" → pyLower t ≠ "human" →
        PlayerFactory.createPlayer t n =
          .error "Invalid player type. Choose 'human' or 'computer'.") ∧
    (∀ t n : String, pyLower t = "computer" →
        PlayerFactory.createPlayer t n = .ok ⟨n, .computer, 0⟩) ∧
    (∀ t n : String, pyLower t = "human" →
        PlayerFactory.createPlayer t n = .ok ⟨n, .human, 0⟩) ∧
    (∀ t1 t2 : String,
        (pyLower t1 ≠ "computer" ∧ pyLower t1 ≠ "human") ∨
        (pyLower t2 ≠ "computer" ∧ pyLower t2 ≠ "human") →
        mkGame t1 t2 =
          .error "Invalid player type. Choose 'human' or 'computer'.") ∧
    (∀ t1 t2 g, mkGame t1 t2 = .ok g →
        ((pyLower t1 = "computer" ∧ g.players.1.kind = .computer) ∨
         (pyLower t1 = "human" ∧ g.players.1.kind = .human)) ∧
        ((pyLower t2 = "computer" ∧ g.players.2.kind = .computer) ∨
         (pyLower t2 = "human" ∧ g.players.2.kind = .human))) := by
  refine ⟨fun t n h1 h2 => ?_, fun t n h => ?_, fun t n h => ?_,
    fun t1 t2 h => ?_, fun t1 t2 g h => ?_⟩
  · simp [PlayerFactory.createPlayer, h1, h2]
  · simp [PlayerFactory.createPlayer, h]
  · unfold PlayerFactory.createPlayer
    rw [h]
    split <;> simp_all
  · rcases h with ⟨h1, h2⟩ | ⟨h1, h2⟩
    · simp [mkGame, PlayerFactory.createPlayer, h1, h2]
    · by_cases a1 : pyLower t1 = "computer"
      · simp [mkGame, PlayerFactory.createPlayer, a1, h1, h2]
      · by_cases b1 : pyLower t1 = "human" <;>
          simp [mkGame, PlayerFactory.createPlayer, a1, b1, h1, h2]
  · unfold mkGame at h
    cases hc1 : PlayerFactory.createPlayer t1 "Player 1" with
    | error e => rw [hc1] at h; exact absurd h (by simp)
    | ok p1 =>
      rw [hc1] at h
      cases hc2 : PlayerFactory.createPlayer t2 "Player 2" with
      | error e => rw [hc2] at h; exact absurd h (by simp)
      | ok p2 =>
        rw [hc2] at h
        simp only [Except.ok.injEq] at h
        subst h
        unfold PlayerFactory.createPlayer at hc1 hc2
        constructor
        · split at hc1
          next h1 =>
            simp only [Except.ok.injEq] at hc1
            exact Or.inl ⟨h1, show p1.kind = PlayerKind.computer by
              rw [← hc1]⟩
          next h1 =>
            split at hc1
            next h2 =>
              simp only [Except.ok.injEq] at hc1
              exact Or.inr ⟨h2, show p1.kind = PlayerKind.human by
                rw [← hc1]⟩
            next h2 => simp at hc1
        · split at hc2
          next h1 =>
            simp only [Except.ok.injEq] at hc2
            exact Or.inl ⟨h1, show p2.kind = PlayerKind.computer by
              rw [← hc2]⟩
          next h1 =>
            split at hc2
            next h2 =>
              simp only [Except.ok.injEq] at hc2
              exact Or.inr ⟨h2, show p2.kind = PlayerKind.human by
                rw [← hc2]⟩
            next h2 => simp at hc2

/-- Witness for C8 at concrete types: "wizard" is rejected, "CoMpUtEr" and
"HUMAN" are accepted with the right kinds, and the mixed constructions fail
or succeed accordingly. -/
theorem invalid_player_type_fails_fast_witness :
    PlayerFactory.createPlayer "wizard" "X" =
      .error "Invalid player type. Choose 'human' or 'computer'." ∧
    PlayerFactory.createPlayer "CoMpUtEr" "X" = .ok ⟨"X", .computer, 0⟩ ∧
    PlayerFactory.createPlayer "HUMAN" "X" = .ok ⟨"X", .human, 0⟩ ∧
    mkGame "human" "wizard" =
      .error "Invalid player type. Choose 'human' or 'computer'." ∧
    (((pyLower "HUMAN" = "computer" ∧
          (⟨(⟨"Player 1", .human, 0⟩, ⟨"Player 2", .computer, 0⟩), ⟨0⟩, 0⟩ :
            GameState).players.1.kind = .computer) ∨
       (pyLower "HUMAN" = "human" ∧
          (⟨(⟨"Player 1", .human, 0⟩, ⟨"Player 2", .computer, 0⟩), ⟨0⟩, 0⟩ :
            GameState).players.1.kind = .human)) ∧
      ((pyLower "computer" = "computer" ∧
          (⟨(⟨"Player 1", .human, 0⟩, ⟨"Player 2", .computer, 0⟩), ⟨0⟩, 0⟩ :
            GameState).players.2.kind = .computer) ∨
       (pyLower "computer" = "human" ∧
          (⟨(⟨"Player 1", .human, 0⟩, ⟨"Player 2", .computer, 0⟩), ⟨0⟩, 0⟩ :
            GameState).players.2.kind = .human))) :=
  ⟨invalid_player_type_fails_fast.1 "wizard" "X" (by decide) (by decide),
   invalid_player_type_fails_fast.2.1 "CoMpUtEr" "X" (by decide),
   invalid_player_type_fails_fast.2.2.1 "HUMAN" "X" (by decide),
   invalid_player_type_fails_fast.2.2.2.1 "human" "wizard"
     (Or.inr ⟨by decide, by decide⟩),
   invalid_player_type_fails_fast.2.2.2.2 "HUMAN" "computer"
     ⟨(⟨"Player 1", .human, 0⟩, ⟨"Player 2", .computer, 0⟩), ⟨0⟩, 0⟩ rfl⟩

theorem playTurnAux_frame (p : Player) :
    ∀ (rolls : List Nat) (turnTotal : Nat) (inputs : List String)
      (r : TurnResult), playTurnAux p turnTotal rolls inputs = some r →
      r.player.name = p.name ∧ r.player.kind = p.kind ∧
      p.score ≤ r.player.score := by
  intro rolls
  induction rolls with
  | nil => intro tt inputs r h; simp [playTurnAux_nil] at h
  | cons roll rolls ih =>
    intro tt inputs r h
    rw [playTurnAux_cons] at h
    by_cases h1 : roll = 1
    · simp only [h1, if_true, Option.some.injEq] at h
      rw [← h]
      exact ⟨rfl, rfl, Nat.le_refl _⟩
    · simp only [h1, if_false] at h
      cases hk : p.kind with
      | computer =>
        rw [hk] at h
        by_cases hd : ComputerPlayer.decide p (tt + roll) = "h"
        · simp only [hd, if_true, Option.some.injEq] at h
          rw [← h]
          exact ⟨rfl, hk, Nat.le_add_right _ _⟩
        · simp only [hd, if_false] at h
          obtain ⟨a, b, c⟩ := ih _ _ _ h
          exact ⟨a, b.trans hk, c⟩
      | human =>
        rw [hk] at h
        cases inputs with
        | nil => simp at h
        | cons s rest =>
          by_cases hd : normalizeInput s = "h"
          · simp only [hd, if_true, Option.some.injEq] at h
            rw [← h]
            exact ⟨rfl, hk, Nat.le_add_right _ _⟩
          · simp only [hd, if_false] at h
            obtain ⟨a, b, c⟩ := ih _ _ _ h
            exact ⟨a, b.trans hk, c⟩

/-- C10: resolving a turn never touches the non-active player — they are
identical before and after — and the active player keeps their name (and
kind), with a score that can only increase. -/
theorem turn_preserves_other_player :
    (∀ (p : Player) (turnTotal : Nat) (rolls : List Nat)
        (inputs : List String) (r : TurnResult),
        playTurnAux p turnTotal rolls inputs = some r →
        r.player.name = p.name ∧ r.player.kind = p.kind ∧
        p.score ≤ r.player.score) ∧
    (∀ (g : GameState) (rolls : List Nat) (inputs : List String)
        (g' : GameState) (rl : List Nat) (il : List String),
        stepTurn g rolls inputs = some (g', rl, il) →
        g'.otherPlayer = g.otherPlayer ∧
        g'.currentPlayer.name = g.currentPlayer.name ∧
        g.currentPlayer.score ≤ g'.currentPlayer.score) := by
  refine ⟨fun p tt rolls inputs r h => playTurnAux_frame p rolls tt inputs r h,
    fun g rolls inputs g' rl il h => ?_⟩
  unfold stepTurn at h
  cases hpt : playTurnAux g.currentPlayer 0 rolls inputs with
  | none => rw [hpt] at h; exact absurd h (by simp)
  | some r =>
    rw [hpt] at h
    simp only [Option.some.injEq, Prod.mk.injEq] at h
    obtain ⟨hg, hrl, hil⟩ := h
    obtain ⟨hname, hkind, hscore⟩ := playTurnAux_frame _ _ _ _ _ hpt
    subst hg
    by_cases hidx : g.currentPlayerIndex = 0 <;>
      simp_all [GameState.setCurrentPlayer, GameState.otherPlayer,
        GameState.currentPlayer, hidx]

/-- Witness for C10 at a concrete turn: player 1 (computer, active) holds at
30 while player 2 is untouched. -/
theorem turn_preserves_other_player_witness :
    ((⟨⟨"Player 1", .computer, 30⟩, .held, 30, [], []⟩ :
        TurnResult).player.name = (⟨"Player 1", .computer, 0⟩ : Player).name ∧
      (⟨⟨"Player 1", .computer, 30⟩, .held, 30, [], []⟩ :
        TurnResult).player.kind = (⟨"Player 1", .computer, 0⟩ : Player).kind ∧
      (⟨"Player 1", .computer, 0⟩ : Player).score ≤
        (⟨⟨"Player 1", .computer, 30⟩, .held, 30, [], []⟩ :
          TurnResult).player.score) ∧
    ((⟨(⟨"Player 1", .computer, 30⟩, ⟨"Player 2", .human, 7⟩), ⟨0⟩, 0⟩ :
        GameState).otherPlayer =
      (⟨(⟨"Player 1", .computer, 0⟩, ⟨"Player 2", .human, 7⟩), ⟨0⟩, 0⟩ :
        GameState).otherPlayer ∧
      (⟨(⟨"Player 1", .computer, 30⟩, ⟨"Player 2", .human, 7⟩), ⟨0⟩, 0⟩ :
        GameState).currentPlayer.name =
      (⟨(⟨"Player 1", .computer, 0⟩, ⟨"Player 2", .human, 7⟩), ⟨0⟩, 0⟩ :
        GameState).currentPlayer.name ∧
      (⟨(⟨"Player 1", .computer, 0⟩, ⟨"Player 2", .human, 7⟩), ⟨0⟩, 0⟩ :
        GameState).currentPlayer.score ≤
      (⟨(⟨"Player 1", .computer, 30⟩, ⟨"Player 2", .human, 7⟩), ⟨0⟩, 0⟩ :
        GameState).currentPlayer.score) :=
  ⟨turn_preserves_other_player.1 ⟨"Player 1", .computer, 0⟩ 0 [6, 6, 6, 6, 6]
      [] ⟨⟨"Player 1", .computer, 30⟩, .held, 30, [], []⟩ (by decide),
   turn_preserves_other_player.2
      ⟨(⟨"Player 1", .computer, 0⟩, ⟨"Player 2", .human, 7⟩), ⟨0⟩, 0⟩
      [6, 6, 6, 6, 6] []
      ⟨(⟨"Player 1", .computer, 30⟩, ⟨"Player 2", .human, 7⟩), ⟨0⟩, 0⟩
      [] [] (by decide)⟩

/-- C9: every constructed game carries the fixed die seed 0 (no entry point
makes it configurable), so for any abstract PRNG two games built from the
same player types produce the same roll stream and hence identical runs on
the same human inputs. -/
theorem fixed_seed_deterministic_runs :
    (∀ (t1 t2 : String) (g : GameState), mkGame t1 t2 = .ok g →
        g.die.seed = 0) ∧
    (∀ (prng : Nat → Nat → Nat) (t1 t2 : String) (g g' : GameState),
        mkGame t1 t2 = .ok g → mkGame t1 t2 = .ok g' →
        ∀ (n fuel : Nat) (inputs : List String),
          runGame prng g n fuel inputs = runGame prng g' n fuel inputs) := by
  constructor
  · intro t1 t2 g h
    unfold mkGame at h
    cases hc1 : PlayerFactory.createPlayer t1 "Player 1" with
    | error e => rw [hc1] at h; exact absurd h (by simp)
    | ok p1 =>
      rw [hc1] at h
      cases hc2 : PlayerFactory.createPlayer t2 "Player 2" with
      | error e => rw [hc2] at h; exact absurd h (by simp)
      | ok p2 =>
        rw [hc2] at h
        simp only [Except.ok.injEq] at h
        rw [← h]
  · intro prng t1 t2 g g' h h' n fuel inputs
    rw [h] at h'
    simp only [Except.ok.injEq] at h'
    rw [h']

/-- Witness for C9 at a concrete construction: a human-vs-human game has die
seed 0, and two identically-constructed runs coincide. -/
theorem fixed_seed_deterministic_runs_witness :
    (⟨(⟨"Player 1", .human, 0⟩, ⟨"Player 2", .human, 0⟩), ⟨0⟩, 0⟩ :
        GameState).die.seed = 0 ∧
    runGame (fun s i => s + i % 6 + 1)
      ⟨(⟨"Player 1", .human, 0⟩, ⟨"Player 2", .human, 0⟩), ⟨0⟩, 0⟩ 4 2
      ["h", "h"] =
    runGame (fun s i => s + i % 6 + 1)
      ⟨(⟨"Player 1", .human, 0⟩, ⟨"Player 2", .human, 0⟩), ⟨0⟩, 0⟩ 4 2
      ["h", "h"] :=
  ⟨fixed_seed_deterministic_runs.1 "human" "HUMAN"
      ⟨(⟨"Player 1", .human, 0⟩, ⟨"Player 2", .human, 0⟩), ⟨0⟩, 0⟩ rfl,
   fixed_seed_deterministic_runs.2 (fun s i => s + i % 6 + 1) "human" "HUMAN"
      ⟨(⟨"Player 1", .human, 0⟩, ⟨"Player 2", .human, 0⟩), ⟨0⟩, 0⟩
      ⟨(⟨"Player 1", .human, 0⟩, ⟨"Player 2", .human, 0⟩), ⟨0⟩, 0⟩
      rfl rfl 4 2 ["h", "h"]⟩

theorem boundaryStates_head (fuel : Nat) (g : GameState) (rolls : List Nat)
    (inputs : List String) :
    ∃ t, boundaryStates fuel g rolls inputs = g :: t := by
  cases fuel with
  | zero => exact ⟨[], rfl⟩
  | succ n => exact ⟨_, rfl⟩

theorem stepTurn_index (g : GameState) (rolls : List Nat)
    (inputs : List String) (g' : GameState) (rl : List Nat)
    (il : List String) : stepTurn g rolls inputs = some (g', rl, il) →
    g'.currentPlayerIndex = g.currentPlayerIndex := by
  intro h
  unfold stepTurn at h
  cases hpt : playTurnAux g.currentPlayer 0 rolls inputs with
  | none => rw [hpt] at h; exact absurd h (by simp)
  | some r =>
    rw [hpt] at h
    simp only [Option.some.injEq, Prod.mk.injEq] at h
    rw [← h.1]
    unfold GameState.setCurrentPlayer
    split <;> rfl

theorem boundaryStates_tail_lt (fuel : Nat) :
    ∀ (g : GameState) (rolls : List Nat) (inputs : List String)
      (g' : GameState),
      g' ∈ (boundaryStates fuel g rolls inputs).drop 1 →
      g'.players.1.score < 100 ∧ g'.players.2.score < 100 := by
  induction fuel with
  | zero => intro g rolls inputs g' h; simp [boundaryStates] at h
  | succ n ih =>
    intro g rolls inputs g' hmem
    rw [boundaryStates] at hmem
    rw [List.drop_one, List.tail_cons] at hmem
    cases hstep : stepTurn g rolls inputs with
    | none => rw [hstep] at hmem; simp at hmem
    | some res =>
      obtain ⟨g2, rl, il⟩ := res
      rw [hstep] at hmem
      by_cases hw : g2.checkWinner
      · simp only [hw, if_true] at hmem
        simp at hmem
      · simp only [hw, if_false] at hmem
        obtain ⟨t, ht⟩ := boundaryStates_head n g2.switchTurn rl il
        rw [ht] at hmem
        rcases List.mem_cons.mp hmem with rfl | hmem'
        · have hlt : ¬ (100 ≤ g2.players.1.score ∨ 100 ≤ g2.players.2.score) := by
            simpa [GameState.checkWinner] using hw
          constructor
          · have := fun h => hlt (Or.inl h)
            simpa [GameState.switchTurn] using Nat.lt_of_not_le this
          · have := fun h => hlt (Or.inr h)
            simpa [GameState.switchTurn] using Nat.lt_of_not_le this
        · apply ih g2.switchTurn rl il
          rw [ht, List.drop_one, List.tail_cons]
          exact hmem'

/-- C5: the win check fires exactly when some player has at least 100 points;
any terminating run of the plain loop ends in a state where the check fires
(the winner is declared at that instant and the loop stops); and every state
at which the loop starts another turn — every boundary state after the first
— has both scores strictly below 100, so the loop never continues past a
winning state. -/
theorem win_check_fires_iff_100 :
    (∀ g : GameState, g.checkWinner = true ↔
        100 ≤ g.players.1.score ∨ 100 ≤ g.players.2.score) ∧
    (∀ (fuel : Nat) (g : GameState) (rolls : List Nat)
        (inputs : List String) (g' : GameState) (rl : List Nat)
        (il : List String),
        gameLoop fuel g rolls inputs = some (g', rl, il) →
        g'.checkWinner = true) ∧
    (∀ (fuel : Nat) (g : GameState) (rolls : List Nat)
        (inputs : List String) (g' : GameState),
        g' ∈ (boundaryStates fuel g rolls inputs).drop 1 →
        g'.players.1.score < 100 ∧ g'.players.2.score < 100) := by
  refine ⟨fun g => ?_, fun fuel => ?_, boundaryStates_tail_lt⟩
  · simp [GameState.checkWinner]
  · induction fuel with
    | zero => intro g rolls inputs g' rl il h; simp [gameLoop] at h
    | succ n ih =>
      intro g rolls inputs g' rl il h
      rw [gameLoop] at h
      cases hstep : stepTurn g rolls inputs with
      | none => rw [hstep] at h; simp at h
      | some res =>
        obtain ⟨g2, rl2, il2⟩ := res
        rw [hstep] at h
        by_cases hw : g2.checkWinner = true
        · simp only [hw, if_true, Option.some.injEq, Prod.mk.injEq] at h
          rw [← h.1]
          exact hw
        · simp only [hw, if_false] at h
          exact ih g2.switchTurn rl2 il2 g' rl il h

/-- Witness for C5 on a concrete all-6s computer-vs-computer run: the loop
stops exactly when player 1 reaches 102, the final state passes the win
check, and an intermediate boundary state is strictly below 100. -/
theorem win_check_fires_iff_100_witness :
    ((⟨(⟨"Player 1", .computer, 102⟩, ⟨"Player 2", .computer, 90⟩), ⟨0⟩, 0⟩ :
        GameState).checkWinner = true ↔
      100 ≤ (⟨(⟨"Player 1", .computer, 102⟩, ⟨"Player 2", .computer, 90⟩),
          ⟨0⟩, 0⟩ : GameState).players.1.score ∨
      100 ≤ (⟨(⟨"Player 1", .computer, 102⟩, ⟨"Player 2", .computer, 90⟩),
          ⟨0⟩, 0⟩ : GameState).players.2.score) ∧
    (⟨(⟨"Player 1", .computer, 102⟩, ⟨"Player 2", .computer, 90⟩), ⟨0⟩, 0⟩ :
        GameState).checkWinner = true ∧
    ((⟨(⟨"Player 1", .computer, 30⟩, ⟨"Player 2", .computer, 0⟩), ⟨0⟩, 1⟩ :
        GameState).players.1.score < 100 ∧
      (⟨(⟨"Player 1", .computer, 30⟩, ⟨"Player 2", .computer, 0⟩), ⟨0⟩, 1⟩ :
        GameState).players.2.score < 100) :=
  ⟨win_check_fires_iff_100.1
      ⟨(⟨"Player 1", .computer, 102⟩, ⟨"Player 2", .computer, 90⟩), ⟨0⟩, 0⟩,
   win_check_fires_iff_100.2.1 7
      ⟨(⟨"Player 1", .computer, 0⟩, ⟨"Player 2", .computer, 0⟩), ⟨0⟩, 0⟩
      (List.replicate 32 6) []
      ⟨(⟨"Player 1", .computer, 102⟩, ⟨"Player 2", .computer, 90⟩), ⟨0⟩, 0⟩
      [] [] (by decide),
   win_check_fires_iff_100.2.2 3
      ⟨(⟨"Player 1", .computer, 0⟩, ⟨"Player 2", .computer, 0⟩), ⟨0⟩, 0⟩
      (List.replicate 32 6) []
      ⟨(⟨"Player 1", .computer, 30⟩, ⟨"Player 2", .computer, 0⟩), ⟨0⟩, 1⟩
      (by decide)⟩

/-- C6: starting from a legal index (0 or 1), the active player index of the
successive turn boundaries strictly alternates: each boundary state's index
is `1 -` the previous one's, and in particular differs from it, so no player
takes two consecutive turns. -/
theorem active_index_alternates :
    ∀ (fuel : Nat) (g : GameState) (rolls : List Nat)
      (inputs : List String), g.currentPlayerIndex ≤ 1 →
      List.Chain'
        (fun a b => b.currentPlayerIndex = 1 - a.currentPlayerIndex ∧
          b.currentPlayerIndex ≠ a.currentPlayerIndex)
        (boundaryStates fuel g rolls inputs) := by
  intro fuel
  induction fuel with
  | zero => intro g rolls inputs hle; simp [boundaryStates]
  | succ n ih =>
    intro g rolls inputs hle
    rw [boundaryStates]
    cases hstep : stepTurn g rolls inputs with
    | none => simp
    | some res =>
      obtain ⟨g2, rl, il⟩ := res
      by_cases hw : g2.checkWinner = true
      · simp [hw]
      · simp only [hw, if_false]
        obtain ⟨t, ht⟩ := boundaryStates_head n g2.switchTurn rl il
        have hidx2 : g2.currentPlayerIndex = g.currentPlayerIndex :=
          stepTurn_index g rolls inputs g2 rl il hstep
        have hsw : g2.switchTurn.currentPlayerIndex =
            1 - g.currentPlayerIndex := by
          simp [GameState.switchTurn, hidx2]
        have hle2 : g2.switchTurn.currentPlayerIndex ≤ 1 := by
          rw [hsw]; omega
        have hchain := ih g2.switchTurn rl il hle2
        rw [ht] at hchain ⊢
        exact List.Chain'.cons ⟨hsw, by rw [hsw]; omega⟩ hchain

/-- Witness for C6 on the first boundaries of a concrete
computer-vs-computer run: indices alternate 0, 1, 0, 1. -/
theorem active_index_alternates_witness :
    List.Chain'
      (fun a b => b.currentPlayerIndex = 1 - a.currentPlayerIndex ∧
        b.currentPlayerIndex ≠ a.currentPlayerIndex)
      (boundaryStates 3
        ⟨(⟨"Player 1", .computer, 0⟩, ⟨"Player 2", .computer, 0⟩), ⟨0⟩, 0⟩
        (List.replicate 32 6) []) :=
  active_index_alternates 3
    ⟨(⟨"Player 1", .computer, 0⟩, ⟨"Player 2", .computer, 0⟩), ⟨0⟩, 0⟩
    (List.replicate 32 6) [] (by decide)

/-- C4: when the elapsed time observed at a turn boundary has reached 60
seconds the timed loop stops right there — no further turn is played — and
declares by score comparison: the strictly higher-scoring player wins, equal
scores are a tie with no winner; when the deadline has not been reached a
full turn is resolved before the next boundary check (the check never fires
mid-turn). -/
theorem timed_deadline_declares_by_score :
    (∀ (times : Nat → Nat) (fuel k : Nat) (g : GameState)
        (rolls : List Nat) (inputs : List String), 60 ≤ times k →
        timedLoop times (fuel + 1) k g rolls inputs =
          some (.timeUp g (declareWinner g))) ∧
    (∀ (times : Nat → Nat) (fuel k : Nat) (g : GameState)
        (rolls : List Nat) (inputs : List String), ¬ 60 ≤ times k →
        timedLoop times (fuel + 1) k g rolls inputs =
          match stepTurn g rolls inputs with
          | none => none
          | some (g', rl, il) =>
            if g'.checkWinner then some (.won g')
            else timedLoop times fuel (k + 1) g'.switchTurn rl il) ∧
    (∀ g : GameState, g.players.2.score < g.players.1.score →
        declareWinner g = some g.players.1) ∧
    (∀ g : GameState, g.players.1.score < g.players.2.score →
        declareWinner g = some g.players.2) ∧
    (∀ g : GameState, g.players.1.score = g.players.2.score →
        declareWinner g = none) ∧
    (∀ (g : GameState) (w : Player), declareWinner g = some w →
        (w = g.players.1 ∧ g.players.2.score < g.players.1.score) ∨
        (w = g.players.2 ∧ g.players.1.score < g.players.2.score)) := by
  refine ⟨fun times fuel k g rolls inputs h => ?_,
    fun times fuel k g rolls inputs h => ?_,
    fun g h => ?_, fun g h => ?_, fun g h => ?_, fun g w h => ?_⟩
  · rw [timedLoop, if_pos h]
  · rw [timedLoop, if_neg h]
  · unfold declareWinner
    rw [if_pos h]
  · unfold declareWinner
    rw [if_neg (Nat.lt_asymm h), if_pos h]
  · unfold declareWinner
    rw [if_neg (by omega), if_neg (by omega)]
  · unfold declareWinner at h
    split at h
    · next h1 =>
        simp only [Option.some.injEq] at h
        exact Or.inl ⟨h.symm, h1⟩
    · split at h
      · next h2 =>
          simp only [Option.some.injEq] at h
          exact Or.inr ⟨h.symm, h2⟩
      · simp at h

/-- Witness for C4 at boundaries where 60 seconds have elapsed: scores 42 and
42 end in a tie, scores 60 and 45 give player 1 the win, and below the
deadline a turn is resolved. -/
theorem timed_deadline_declares_by_score_witness :
    timedLoop (fun _ => 60) (0 + 1) 0
      ⟨(⟨"Player 1", .human, 42⟩, ⟨"Player 2", .human, 42⟩), ⟨0⟩, 0⟩ [] [] =
      some (.timeUp
        ⟨(⟨"Player 1", .human, 42⟩, ⟨"Player 2", .human, 42⟩), ⟨0⟩, 0⟩
        (declareWinner
          ⟨(⟨"Player 1", .human, 42⟩, ⟨"Player 2", .human, 42⟩), ⟨0⟩, 0⟩)) ∧
    declareWinner
      ⟨(⟨"Player 1", .human, 42⟩, ⟨"Player 2", .human, 42⟩), ⟨0⟩, 0⟩ =
      none ∧
    declareWinner
      ⟨(⟨"Player 1", .human, 60⟩, ⟨"Player 2", .human, 45⟩), ⟨0⟩, 0⟩ =
      some (⟨(⟨"Player 1", .human, 60⟩, ⟨"Player 2", .human, 45⟩), ⟨0⟩, 0⟩ :
        GameState).players.1 ∧
    timedLoop (fun _ => 30) (0 + 1) 0
      ⟨(⟨"Player 1", .human, 42⟩, ⟨"Player 2", .human, 42⟩), ⟨0⟩, 0⟩ [1] [] =
      (match stepTurn
          ⟨(⟨"Player 1", .human, 42⟩, ⟨"Player 2", .human, 42⟩), ⟨0⟩, 0⟩
          [1] [] with
        | none => none
        | some (g', rl, il) =>
          if g'.checkWinner then some (.won g')
          else timedLoop (fun _ => 30) 0 (0 + 1) g'.switchTurn rl il) :=
  ⟨timed_deadline_declares_by_score.1 (fun _ => 60) 0 0
      ⟨(⟨"Player 1", .human, 42⟩, ⟨"Player 2", .human, 42⟩), ⟨0⟩, 0⟩ [] []
      (by decide),
   timed_deadline_declares_by_score.2.2.2.2.1
      ⟨(⟨"Player 1", .human, 42⟩, ⟨"Player 2", .human, 42⟩), ⟨0⟩, 0⟩ rfl,
   timed_deadline_declares_by_score.2.2.1
      ⟨(⟨"Player 1", .human, 60⟩, ⟨"Player 2", .human, 45⟩), ⟨0⟩, 0⟩
      (by decide),
   timed_deadline_declares_by_score.2.1 (fun _ => 30) 0 0
      ⟨(⟨"Player 1", .human, 42⟩, ⟨"Player 2", .human, 42⟩), ⟨0⟩, 0⟩ [1] []
      (by decide)⟩
